import Mathlib

/-!
Shallow embedding of `scvae/distributions/categorised.py`.

The file defines the `Categorised` distribution: a categorical distribution
over `N` classes combined with a base distribution used for overflow values
`x ≥ event_size` where `event_size = N - 1`.  Tensors are modelled per batch
element (every batched quantity becomes one real number); batch shapes are
kept as explicit dimension lists so the deferred shape assertions can be
modelled; Python exceptions become `Except` values.
-/

namespace Scvae

/-- Model of `nn_ops.softmax` along the class axis for one batch element:
`softmax(l)[k] = exp l[k] / Σ_j exp l[j]`. -/
noncomputable def softmax (logits : List ℝ) : List ℝ :=
  logits.map (fun l => Real.exp l / (logits.map Real.exp).sum)

/-- Model of `clip_ops.clip_by_value`: `min (max x lo) hi`. -/
noncomputable def clipByValue (x lo hi : ℝ) : ℝ := min (max x lo) hi

/-- Model of `math_ops.cast(·, int32)` on a real scalar: truncation toward
zero. -/
noncomputable def truncToInt (r : ℝ) : ℤ := if 0 ≤ r then ⌊r⌋ else ⌈r⌉

/-- The categorical component (`cat`), per batch element: the raw class
logits, the statically inferred class count
(`tensor_util.constant_value(cat.event_size)`, `none` when it cannot be
resolved), the batch shape, and the `_graph_parents` list modelled as opaque
ids. -/
structure CatDist where
  logits : List ℝ
  eventSizeStatic : Option ℕ
  batchShape : List ℕ
  graphParents : List ℕ

/-- Model of `Categorical.log_prob k` from the external library: the
log-softmax of the logits at class `k`, i.e. `logits[k] - log Σ_j exp
logits[j]`; an out-of-range index is undefined behaviour in the source and is
modelled by the junk value `0`. -/
noncomputable def CatDist.logProbAt (c : CatDist) (k : ℤ) : ℝ :=
  if 0 ≤ k ∧ k.toNat < c.logits.length then
    c.logits.getD k.toNat 0 - Real.log ((c.logits.map Real.exp).sum)
  else 0

/-- The base component (`dist`), per batch element: exact mean, variance and
log-density, the statically known event rank (`none` when unknown), the batch
shape and the `_graph_parents` list. -/
structure BaseDist where
  mean : ℝ
  variance : ℝ
  logProb : ℝ → ℝ
  eventRankStatic : Option ℕ
  batchShape : List ℕ
  graphParents : List ℕ

/-- A deferred `check_ops.assert_equal` assertion: whether it holds at
runtime, and the message it carries. -/
structure Assertion where
  holds : Bool
  message : String

/-- The message attached to both deferred batch-shape assertions in
`Categorised.__init__` (the source's `check_message`). -/
def checkMessage : String := "dist batch shape must match cat batch shape"

/-- The constructed `Categorised` object: the stored categorical component
(the one whose graph-parents list was extended in place), the base component,
the static class count `N`, the validation flag, the deferred assertions, and
the graph parents handed to the superclass. -/
structure Categorised where
  cat : CatDist
  dist : BaseDist
  staticCatEventSize : ℕ
  validateArgs : Bool
  assertions : List Assertion
  graphParents : List ℕ

/-- Model of the `event_size` property: `self._static_cat_event_size - 1`,
computed with Python integer arithmetic (so it is `-1` for `N = 0`). -/
def Categorised.eventSize (d : Categorised) : ℤ :=
  (d.staticCatEventSize : ℤ) - 1

/-- Error kinds raised by `Categorised.__init__`: `TypeError` and
`ValueError`. -/
inductive ErrKind
  | typeKind
  | valueKind
deriving DecidableEq

/-- The `cat` argument as passed by the caller: either a `Categorical`
instance or some other Python value. -/
inductive CatArg
  | catDist (c : CatDist)
  | notCat

/-- The `dist` argument as passed by the caller: a `Distribution` instance
(always truthy in Python), an empty list (falsy, caught by `if not dist:`),
or any other truthy value that is not a `Distribution` instance. -/
inductive DistArg
  | distObj (b : BaseDist)
  | emptyList
  | otherTruthy

/-- Result of a successful construction: the new object together with the
caller's categorical component as observable after `__init__` (the `+=` on
`_graph_parents` extends the shared list in place, so the caller sees the
extension). -/
structure ConstructResult where
  obj : Categorised
  catAfter : CatDist

/-- Model of `Categorised.__init__`: the type and value checks in source
order, construction of the two deferred batch-shape assertions when
`validate_args` is set, `event_size = N - 1`, and the in-place extension of
the categorical component's graph-parents list by the base component's. -/
def construct (catArg : CatArg) (distArg : DistArg) (validateArgs : Bool) :
    Except ErrKind ConstructResult :=
  match catArg with
  | .notCat => .error .typeKind
  | .catDist c =>
    match distArg with
    | .emptyList => .error .valueKind
    | .otherTruthy => .error .typeKind
    | .distObj b =>
      match b.eventRankStatic with
      | none => .error .valueKind
      | some _ =>
        match c.eventSizeStatic with
        | none => .error .valueKind
        | some n =>
          let assertions : List Assertion :=
            if validateArgs then
              [⟨c.batchShape.length == b.batchShape.length, checkMessage⟩,
               ⟨c.batchShape == b.batchShape, checkMessage⟩]
            else []
          let catAfter : CatDist :=
            { c with graphParents := c.graphParents ++ b.graphParents }
          .ok { obj :=
                  { cat := catAfter
                    dist := b
                    staticCatEventSize := n
                    validateArgs := validateArgs
                    assertions := assertions
                    graphParents := catAfter.graphParents }
                catAfter := catAfter }

/-- Runtime failures of the numeric methods: a violated deferred assertion
(carrying its message), `math_ops.add_n` applied to an empty list, or
`array_ops.unstack` applied to a tensor whose class axis does not match the
static `num`. -/
inductive EvalErr
  | assertFailed (message : String)
  | addnEmpty
  | unstackMismatch
deriving DecidableEq

/-- Model of `ops.control_dependencies(self._assertions)`: evaluate the
deferred assertions, failing with the first violated assertion's message. -/
def runAssertions (d : Categorised) : Except EvalErr Unit :=
  match d.assertions.find? (fun a => !a.holds) with
  | some a => .error (.assertFailed a.message)
  | none => .ok ()

/-- Model of `array_ops.unstack` with static `num`: fails unless the length
of the class axis equals `num`. -/
def unstack (xs : List ℝ) (num : ℕ) : Except EvalErr (List ℝ) :=
  if xs.length = num then .ok xs else .error .unstackMismatch

/-- Model of `math_ops.add_n`, which rejects an empty list of inputs. -/
def addN (xs : List ℝ) : Except EvalErr ℝ :=
  if xs.isEmpty then .error .addnEmpty else .ok xs.sum

/-- Model of `Categorised._cat_probs(log_probs=False)`: the softmax of the
categorical logits, unstacked into `N` per-class batch values. -/
noncomputable def Categorised.catProbs (d : Categorised) :
    Except EvalErr (List ℝ) :=
  unstack (softmax d.cat.logits) d.staticCatEventSize

/-- The softmax class probability `P(class = k)` of the stored categorical
component. -/
noncomputable def Categorised.classProb (d : Categorised) (k : ℕ) : ℝ :=
  (softmax d.cat.logits).getD k 0

/-- Model of `Categorised._mean`: run the deferred assertions, then return
`Σ_{k < event_size} k·π_k + π_last · (dist.mean + event_size)`.  As in the
source, the per-class list ranges over `range(event_size)` (empty for
`event_size ≤ 0`, as in Python) and is combined with `add_n`, which fails on
an empty list. -/
noncomputable def Categorised.mean (d : Categorised) : Except EvalErr ℝ := do
  runAssertions d
  let catProbs ← d.catProbs
  let catMeans := (List.range d.eventSize.toNat).map
    (fun k : ℕ => (k : ℝ) * catProbs.getD k 0)
  let catMean ← addN catMeans
  let distMean := catProbs.getLast?.getD 0 * (d.dist.mean + (d.eventSize : ℝ))
  return catMean + distMean

/-- Model of `Categorised._variance`: the second moment of the mixture minus
the square of a fresh internal call to `_mean`. -/
noncomputable def Categorised.variance (d : Categorised) : Except EvalErr ℝ := do
  runAssertions d
  let catProbs ← d.catProbs
  let cat2ndMoments := (List.range d.eventSize.toNat).map
    (fun k : ℕ => (k : ℝ) ^ 2 * catProbs.getD k 0)
  let cat2ndMoment ← addN cat2ndMoments
  let dist2ndMoment := catProbs.getLast?.getD 0 *
    (2 * (d.eventSize : ℝ) * d.dist.mean + d.dist.variance
      + d.dist.mean ^ 2 + (d.eventSize : ℝ) ^ 2)
  let m ← d.mean
  return cat2ndMoment + dist2ndMoment - m ^ 2

/-- The class index handed to the categorical component inside `_log_prob`:
`cast(clip_by_value(x, 0, event_size), int32)`. -/
noncomputable def Categorised.catIndex (d : Categorised) (x : ℝ) : ℤ :=
  truncToInt (clipByValue x 0 (d.eventSize : ℝ))

/-- Model of `Categorised._log_prob`: run the deferred assertions, query the
categorical component at the clipped and integer-cast input, and select with
`where(x < event_size, cat_log_prob, cat_log_prob + dist.log_prob(x -
event_size))`. -/
noncomputable def Categorised.logProb (d : Categorised) (x : ℝ) :
    Except EvalErr ℝ := do
  runAssertions d
  let catLogProb := d.cat.logProbAt (d.catIndex x)
  return if x < (d.eventSize : ℝ) then catLogProb
    else catLogProb + d.dist.logProb (x - (d.eventSize : ℝ))

/-- Model of `Categorised._prob`: the pointwise exponential of `_log_prob`,
with no separate code path. -/
noncomputable def Categorised.prob (d : Categorised) (x : ℝ) :
    Except EvalErr ℝ :=
  (d.logProb x).map Real.exp

/-- A base component that is a point mass at `1`: mean `1`, variance `0`,
log-density `0` everywhere (a convenient stand-in for the concrete test
scenario of the specification). -/
noncomputable def pointMassBase : BaseDist :=
  { mean := 1
    variance := 0
    logProb := fun _ => 0
    eventRankStatic := some 0
    batchShape := [3]
    graphParents := [10] }

/-- The categorical component of the concrete scenario: three classes with
logits `[0, 0, log 2]`, softmax probabilities `[1/4, 1/4, 1/2]`. -/
noncomputable def scenarioCat : CatDist :=
  { logits := [0, 0, Real.log 2]
    eventSizeStatic := some 3
    batchShape := [3]
    graphParents := [1, 2] }

/-- The concrete scenario distribution: `N = 3` classes over the point-mass
base, no validation. -/
noncomputable def scenarioDist : Categorised :=
  { cat := scenarioCat
    dist := pointMassBase
    staticCatEventSize := 3
    validateArgs := false
    assertions := []
    graphParents := [] }

/-- A categorical component with a single class (`N = 1`), used to exercise
the degenerate `event_size = 0` behaviour of the moment methods. -/
noncomputable def singleClassCat : CatDist :=
  { logits := [0]
    eventSizeStatic := some 1
    batchShape := [3]
    graphParents := [] }

/-- A base component whose batch shape deliberately differs from
`scenarioCat`'s, used to exercise the deferred shape assertions. -/
noncomputable def mismatchedBase : BaseDist :=
  { mean := 1
    variance := 0
    logProb := fun _ => 0
    eventRankStatic := some 0
    batchShape := [4]
    graphParents := [] }

/-- A base component whose event rank is not statically known. -/
noncomputable def unknownRankBase : BaseDist :=
  { mean := 1
    variance := 0
    logProb := fun _ => 0
    eventRankStatic := none
    batchShape := [3]
    graphParents := [] }

/-- The result of constructing the scenario distribution from its
components. -/
noncomputable def scenarioResult : ConstructResult :=
  { obj :=
      { cat :=
          { scenarioCat with
            graphParents := scenarioCat.graphParents ++ pointMassBase.graphParents }
        dist := pointMassBase
        staticCatEventSize := 3
        validateArgs := false
        assertions := []
        graphParents := scenarioCat.graphParents ++ pointMassBase.graphParents }
    catAfter :=
      { scenarioCat with
        graphParents := scenarioCat.graphParents ++ pointMassBase.graphParents } }

/-- The result of constructing, with validation, a distribution whose two
components have batch shapes of equal rank but different dimensions. -/
noncomputable def mismatchResult : ConstructResult :=
  { obj :=
      { cat :=
          { scenarioCat with
            graphParents := scenarioCat.graphParents ++ mismatchedBase.graphParents }
        dist := mismatchedBase
        staticCatEventSize := 3
        validateArgs := true
        assertions := [⟨true, checkMessage⟩, ⟨false, checkMessage⟩]
        graphParents := scenarioCat.graphParents ++ mismatchedBase.graphParents }
    catAfter :=
      { scenarioCat with
        graphParents := scenarioCat.graphParents ++ mismatchedBase.graphParents } }

/-- The result of constructing a distribution over the single-class
categorical component. -/
noncomputable def singleClassResult : ConstructResult :=
  { obj :=
      { cat :=
          { singleClassCat with
            graphParents := singleClassCat.graphParents ++ pointMassBase.graphParents }
        dist := pointMassBase
        staticCatEventSize := 1
        validateArgs := false
        assertions := []
        graphParents := singleClassCat.graphParents ++ pointMassBase.graphParents }
    catAfter :=
      { singleClassCat with
        graphParents := singleClassCat.graphParents ++ pointMassBase.graphParents } }

section Helpers

/-- Softmax preserves the number of classes. -/
theorem softmax_length (l : List ℝ) : (softmax l).length = l.length := by
  simp [softmax]

/-- The sum of the exponentials of a non-empty list of logits is positive. -/
theorem sum_map_exp_pos (l : List ℝ) (h : l ≠ []) :
    0 < (l.map Real.exp).sum := by
  apply List.sum_pos
  · intro x hx
    rcases List.mem_map.mp hx with ⟨a, _, rfl⟩
    exact Real.exp_pos a
  · simpa using h

/-- In-range entries of the softmax list are the normalized exponentials. -/
theorem softmax_getD (l : List ℝ) (k : ℕ) (hk : k < l.length) :
    (softmax l).getD k 0 = Real.exp (l.getD k 0) / (l.map Real.exp).sum := by
  have hk' : k < (softmax l).length := by simpa [softmax_length] using hk
  rw [List.getD_eq_getElem _ _ hk', List.getD_eq_getElem _ _ hk]
  simp [softmax]

/-- For an in-range class index, the categorical log-probability is the
logarithm of the softmax class probability. -/
theorem logProbAt_eq_log_softmax (c : CatDist) (k : ℕ)
    (hk : k < c.logits.length) :
    c.logProbAt (k : ℤ) = Real.log ((softmax c.logits).getD k 0) := by
  have hne : c.logits ≠ [] := by
    intro h
    rw [h] at hk
    simp at hk
  have hS := sum_map_exp_pos c.logits hne
  rw [softmax_getD _ _ hk,
    Real.log_div (Real.exp_ne_zero _) (ne_of_gt hS), Real.log_exp]
  simp [CatDist.logProbAt, hk]

/-- Reduction of a successful bind in the `Except` monad. -/
theorem except_ok_bind {ε α β : Type} (a : α) (f : α → Except ε β) :
    (Except.ok a : Except ε α) >>= f = f a := rfl

/-- Reduction of a failing bind in the `Except` monad. -/
theorem except_error_bind {ε α β : Type} (e : ε) (f : α → Except ε β) :
    (Except.error e : Except ε α) >>= f = .error e := rfl

/-- Reduction of `Functor.map` over a successful `Except`. -/
theorem except_map_ok {ε α β : Type} (f : α → β) (a : α) :
    f <$> (Except.ok a : Except ε α) = .ok (f a) := rfl

/-- Reduction of `Functor.map` over a failing `Except`. -/
theorem except_map_error {ε α β : Type} (f : α → β) (e : ε) :
    f <$> (Except.error e : Except ε α) = .error e := rfl

/-- When no assertion was registered, the deferred check succeeds. -/
theorem runAssertions_nil (d : Categorised) (h : d.assertions = []) :
    runAssertions d = .ok () := by
  simp [runAssertions, h]

/-- When the logits length matches the static class count, `_cat_probs`
returns the softmax list. -/
theorem catProbs_eval (d : Categorised)
    (hLen : d.cat.logits.length = d.staticCatEventSize) :
    d.catProbs = .ok (softmax d.cat.logits) := by
  simp [Categorised.catProbs, unstack, softmax_length, hLen]

/-- Unfolding of `_log_prob` when the deferred assertions pass. -/
theorem logProb_eval (d : Categorised) (hA : runAssertions d = .ok ()) (x : ℝ) :
    d.logProb x =
      .ok (if x < (d.eventSize : ℝ) then d.cat.logProbAt (d.catIndex x)
        else d.cat.logProbAt (d.catIndex x)
          + d.dist.logProb (x - (d.eventSize : ℝ))) := by
  simp [Categorised.logProb, hA]

/-- With at least one class, `event_size.toNat` is the class count minus
one. -/
theorem eventSize_toNat (d : Categorised) (h : 1 ≤ d.staticCatEventSize) :
    d.eventSize.toNat = d.staticCatEventSize - 1 := by
  simp only [Categorised.eventSize]
  omega

/-- The last softmax class probability is `classProb (N - 1)`. -/
theorem getLast_softmax (d : Categorised)
    (hLen : d.cat.logits.length = d.staticCatEventSize) :
    (softmax d.cat.logits).getLast?.getD 0
      = d.classProb (d.staticCatEventSize - 1) := by
  rw [Categorised.classProb, List.getLast?_eq_getElem?, softmax_length, hLen,
    List.getD_eq_getElem?_getD]

/-- Unfolding of `_mean` when the assertions pass, the class axis matches,
and there are at least two classes (so `add_n` receives a non-empty list). -/
theorem mean_eval (d : Categorised) (hA : runAssertions d = .ok ())
    (hLen : d.cat.logits.length = d.staticCatEventSize)
    (h2 : 2 ≤ d.staticCatEventSize) :
    d.mean = .ok
      ((((List.range (d.staticCatEventSize - 1)).map
          (fun k : ℕ => (k : ℝ) * d.classProb k)).sum)
        + d.classProb (d.staticCatEventSize - 1)
          * (d.dist.mean + (d.eventSize : ℝ))) := by
  have hts : d.eventSize.toNat = d.staticCatEventSize - 1 :=
    eventSize_toNat d (by omega)
  have hne : ((List.range (d.staticCatEventSize - 1)).map
      (fun k : ℕ => (k : ℝ) * (softmax d.cat.logits).getD k 0)).isEmpty
        = false := by
    simp
    omega
  have hnz : ¬(d.staticCatEventSize - 1 = 0) := by omega
  simp [Categorised.mean, hA, catProbs_eval d hLen, hts, addN, hne, hnz,
    except_ok_bind, except_error_bind, except_map_ok,
    getLast_softmax d hLen, Categorised.classProb]

/-- Unfolding of `_variance` under the same conditions, given the value of
the internal `_mean` call. -/
theorem variance_eval (d : Categorised) (hA : runAssertions d = .ok ())
    (hLen : d.cat.logits.length = d.staticCatEventSize)
    (h2 : 2 ≤ d.staticCatEventSize) (m : ℝ) (hm : d.mean = .ok m) :
    d.variance = .ok
      ((((List.range (d.staticCatEventSize - 1)).map
          (fun k : ℕ => (k : ℝ) ^ 2 * d.classProb k)).sum)
        + d.classProb (d.staticCatEventSize - 1)
          * (2 * (d.eventSize : ℝ) * d.dist.mean + d.dist.variance
            + d.dist.mean ^ 2 + (d.eventSize : ℝ) ^ 2)
        - m ^ 2) := by
  have hts : d.eventSize.toNat = d.staticCatEventSize - 1 :=
    eventSize_toNat d (by omega)
  have hne : ((List.range (d.staticCatEventSize - 1)).map
      (fun k : ℕ => (k : ℝ) ^ 2 * (softmax d.cat.logits).getD k 0)).isEmpty
        = false := by
    simp
    omega
  have hnz : ¬(d.staticCatEventSize - 1 = 0) := by omega
  simp [Categorised.variance, hA, catProbs_eval d hLen, hts, addN, hne, hnz,
    except_ok_bind, except_error_bind, except_map_ok,
    getLast_softmax d hLen, hm, Categorised.classProb]

/-- With at most one class, `_mean` fails inside `add_n`: the per-class list
is empty. -/
theorem mean_degenerate (d : Categorised) (hA : runAssertions d = .ok ())
    (hLen : d.cat.logits.length = d.staticCatEventSize)
    (h1 : d.staticCatEventSize ≤ 1) :
    d.mean = .error .addnEmpty := by
  have hts : d.eventSize.toNat = 0 := by
    simp only [Categorised.eventSize]
    omega
  simp [Categorised.mean, hA, catProbs_eval d hLen, hts, addN,
    except_ok_bind, except_error_bind]

/-- With at most one class, `_variance` fails inside `add_n` the same way. -/
theorem variance_degenerate (d : Categorised) (hA : runAssertions d = .ok ())
    (hLen : d.cat.logits.length = d.staticCatEventSize)
    (h1 : d.staticCatEventSize ≤ 1) :
    d.variance = .error .addnEmpty := by
  have hts : d.eventSize.toNat = 0 := by
    simp only [Categorised.eventSize]
    omega
  simp [Categorised.variance, hA, catProbs_eval d hLen, hts, addN,
    except_ok_bind, except_error_bind]

/-- Inversion of a successful construction: the fields of the returned
object in terms of the arguments. -/
theorem construct_ok_obj (c : CatDist) (b : BaseDist) (v : Bool)
    (r : ConstructResult)
    (hr : construct (.catDist c) (.distObj b) v = .ok r) :
    r.obj.cat.logits = c.logits
    ∧ (∀ n : ℕ, c.eventSizeStatic = some n → r.obj.staticCatEventSize = n)
    ∧ r.obj.dist = b
    ∧ r.obj.assertions =
        (if v = true then
          [⟨c.batchShape.length == b.batchShape.length, checkMessage⟩,
           ⟨c.batchShape == b.batchShape, checkMessage⟩]
        else [])
    ∧ r.catAfter.graphParents = c.graphParents ++ b.graphParents := by
  cases hbr : b.eventRankStatic with
  | none => simp [construct, hbr] at hr
  | some k =>
    cases hcn : c.eventSizeStatic with
    | none => simp [construct, hbr, hcn] at hr
    | some n =>
      simp [construct, hbr, hcn] at hr
      subst hr
      refine ⟨rfl, ?_, rfl, rfl, rfl⟩
      intro m hm
      exact Option.some_injective _ hm

end Helpers

/-- C6: for every input `x`, `prob x` is exactly the pointwise exponential of
`log_prob x` — the same `Except` value mapped through `Real.exp`, with no
separate code path; in particular a successful `log_prob` value `y` yields
`prob = exp y`. -/
theorem prob_eq_exp_logProb :
    ∀ (d : Categorised) (x : ℝ),
      d.prob x = (d.logProb x).map Real.exp
      ∧ ∀ y : ℝ, d.logProb x = .ok y → d.prob x = .ok (Real.exp y) := by
  intro d x
  refine ⟨rfl, fun y hy => ?_⟩
  simp [Categorised.prob, hy, Except.map]

/-- Witness for C6 at the concrete scenario distribution and input `-1`. -/
theorem prob_eq_exp_logProb_witness :
    scenarioDist.prob (-1)
      = .ok (Real.exp
          (scenarioDist.cat.logProbAt (scenarioDist.catIndex (-1)))) :=
  (prob_eq_exp_logProb scenarioDist (-1)).2 _ (by
    rw [logProb_eval scenarioDist rfl (-1)]
    norm_num [Categorised.eventSize, scenarioDist])

/-- C7: a successful construction from a categorical component whose
statically known class count is `n` yields `event_size = n - 1`; the object
is a pure value of the construction, so the property never changes
afterwards. -/
theorem event_size_eq_pred_class_count (c : CatDist) (b : BaseDist) (v : Bool)
    (n : ℕ) (hn : c.eventSizeStatic = some n) (r : ConstructResult)
    (hr : construct (.catDist c) (.distObj b) v = .ok r) :
    r.obj.eventSize = (n : ℤ) - 1 := by
  cases hbr : b.eventRankStatic with
  | none => simp [construct, hbr] at hr
  | some k =>
    simp [construct, hbr, hn] at hr
    subst hr
    simp [Categorised.eventSize]

/-- Witness for C7: the scenario construction (`N = 3`) has
`event_size = 2`. -/
theorem event_size_eq_pred_class_count_witness :
    scenarioResult.obj.eventSize = (3 : ℤ) - 1 :=
  event_size_eq_pred_class_count scenarioCat pointMassBase false 3 rfl
    scenarioResult rfl

/-- C8: for every real input `x` (negative or arbitrarily large), as long as
the categorical component has at least one class, the index handed to the
categorical component inside `_log_prob` lies in `0 .. event_size`. -/
theorem catIndex_within_range (d : Categorised) (x : ℝ)
    (hN : 1 ≤ d.staticCatEventSize) :
    0 ≤ d.catIndex x ∧ d.catIndex x ≤ d.eventSize := by
  have hes : (0 : ℤ) ≤ d.eventSize := by
    simp only [Categorised.eventSize]
    omega
  have hesR : (0 : ℝ) ≤ (d.eventSize : ℝ) := by exact_mod_cast hes
  have hcl : 0 ≤ clipByValue x 0 (d.eventSize : ℝ) :=
    le_min (le_max_right x 0) hesR
  have hcu : clipByValue x 0 (d.eventSize : ℝ) ≤ (d.eventSize : ℝ) :=
    min_le_right _ _
  unfold Categorised.catIndex truncToInt
  rw [if_pos hcl]
  refine ⟨Int.floor_nonneg.mpr hcl, ?_⟩
  calc ⌊clipByValue x 0 (d.eventSize : ℝ)⌋
      ≤ ⌊((d.eventSize : ℤ) : ℝ)⌋ := Int.floor_le_floor hcu
    _ = d.eventSize := Int.floor_intCast _

/-- Witness for C8 at the scenario distribution and the large input
`1000`. -/
theorem catIndex_within_range_witness :
    0 ≤ scenarioDist.catIndex 1000
      ∧ scenarioDist.catIndex 1000 ≤ scenarioDist.eventSize :=
  catIndex_within_range scenarioDist 1000 (by decide)

/-- C10: construction extends the caller-owned categorical component's
graph-parents list in place by the base component's graph parents, so the
caller's categorical object is observably changed whenever the base has any
graph parent. -/
theorem construct_extends_cat_graph_parents (c : CatDist) (b : BaseDist)
    (v : Bool) (r : ConstructResult)
    (hr : construct (.catDist c) (.distObj b) v = .ok r) :
    r.catAfter.graphParents = c.graphParents ++ b.graphParents
      ∧ (b.graphParents ≠ [] → r.catAfter ≠ c) := by
  cases hbr : b.eventRankStatic with
  | none => simp [construct, hbr] at hr
  | some k =>
    cases hcn : c.eventSizeStatic with
    | none => simp [construct, hbr, hcn] at hr
    | some n =>
      simp [construct, hbr, hcn] at hr
      subst hr
      refine ⟨rfl, fun hb hEq => ?_⟩
      have hgp := congrArg CatDist.graphParents hEq
      simp at hgp
      exact hb hgp

/-- Witness for C10: the scenario construction appends the base component's
graph parent `10`, observably changing the categorical component. -/
theorem construct_extends_cat_graph_parents_witness :
    scenarioResult.catAfter.graphParents
        = scenarioCat.graphParents ++ pointMassBase.graphParents
      ∧ scenarioResult.catAfter ≠ scenarioCat := by
  have h := construct_extends_cat_graph_parents scenarioCat pointMassBase
    false scenarioResult rfl
  exact ⟨h.1, h.2 (by simp [pointMassBase])⟩

/-- C5 counterexample: with a valid categorical component and an empty list
as the base argument, construction raises `ValueError`, not the `TypeError`
the claim requires for every non-distribution base argument. -/
theorem construct_empty_base_counterexample :
    construct (.catDist scenarioCat) .emptyList false = .error .valueKind
      ∧ ErrKind.valueKind ≠ ErrKind.typeKind :=
  ⟨rfl, by decide⟩

/-- C5 (amended): construction fails with a type error exactly when the
categorical argument is not a categorical-distribution instance or the base
argument is a non-empty non-distribution; it fails with a value error
exactly when (the categorical argument being valid) the base argument is
empty, the base event rank is unknown, or the class count is not static; in
the remaining case construction succeeds, so no other construction-time
failure occurs. -/
theorem construct_error_characterisation :
    ∀ (dA : DistArg) (v : Bool),
      construct .notCat dA v = .error .typeKind
      ∧ ∀ c : CatDist,
        construct (.catDist c) .emptyList v = .error .valueKind
        ∧ construct (.catDist c) .otherTruthy v = .error .typeKind
        ∧ ∀ b : BaseDist,
          (b.eventRankStatic = none →
            construct (.catDist c) (.distObj b) v = .error .valueKind)
          ∧ (∀ k : ℕ, b.eventRankStatic = some k →
              c.eventSizeStatic = none →
              construct (.catDist c) (.distObj b) v = .error .valueKind)
          ∧ ∀ (k n : ℕ), b.eventRankStatic = some k →
              c.eventSizeStatic = some n →
              (construct (.catDist c) (.distObj b) v).isOk = true := by
  intro dA v
  refine ⟨rfl, fun c => ⟨rfl, rfl, fun b => ⟨?_, ?_, ?_⟩⟩⟩
  · intro h
    simp [construct, h]
  · intro k hk hn
    simp [construct, hk, hn]
  · intro k n hk hn
    simp [construct, hk, hn, Except.isOk, Except.toBool]

/-- Witness for C5 at a base component with unknown event rank. -/
theorem construct_error_characterisation_witness :
    construct (.catDist scenarioCat) (.distObj unknownRankBase) false
      = .error .valueKind :=
  (((construct_error_characterisation .emptyList false).2 scenarioCat).2.2
    unknownRankBase).1 rfl

/-- C1: whenever the deferred assertions pass and the categorical component
has `N ≥ 1` classes, `log_prob` scores the clipped, integer-cast input under
the categorical component and returns exactly that categorical
log-probability for `x < event_size`, adds the base log-density at
`x - event_size` for `x ≥ event_size`, and at the boundary `x = event_size`
returns `log P(class = event_size) + base.log_prob 0`. -/
theorem logProb_piecewise (d : Categorised) (hA : runAssertions d = .ok ())
    (hN : 1 ≤ d.staticCatEventSize)
    (hLen : d.cat.logits.length = d.staticCatEventSize) :
    (∀ x : ℝ, x < (d.eventSize : ℝ) →
        d.logProb x = .ok (d.cat.logProbAt (d.catIndex x)))
    ∧ (∀ x : ℝ, (d.eventSize : ℝ) ≤ x →
        d.logProb x = .ok (d.cat.logProbAt (d.catIndex x)
          + d.dist.logProb (x - (d.eventSize : ℝ))))
    ∧ d.logProb ((d.eventSize : ℝ))
        = .ok (Real.log (d.classProb (d.staticCatEventSize - 1))
          + d.dist.logProb 0) := by
  have hes : (0 : ℤ) ≤ d.eventSize := by
    simp only [Categorised.eventSize]
    omega
  refine ⟨?_, ?_, ?_⟩
  · intro x hx
    rw [logProb_eval d hA x, if_pos hx]
  · intro x hx
    rw [logProb_eval d hA x, if_neg (not_lt.mpr hx)]
  · have h0 : (0 : ℝ) ≤ (d.eventSize : ℝ) := by exact_mod_cast hes
    have hidx : d.catIndex ((d.eventSize : ℝ)) = d.eventSize := by
      unfold Categorised.catIndex clipByValue truncToInt
      rw [max_eq_left h0, min_self, if_pos h0, Int.floor_intCast]
    have hcast : d.eventSize = ((d.staticCatEventSize - 1 : ℕ) : ℤ) := by
      simp only [Categorised.eventSize]
      omega
    have hk : d.staticCatEventSize - 1 < d.cat.logits.length := by
      rw [hLen]
      omega
    rw [logProb_eval d hA _, if_neg (lt_irrefl _), hidx, sub_self, hcast,
      logProbAt_eq_log_softmax d.cat (d.staticCatEventSize - 1) hk]
    rfl

/-- Witness for C1: the boundary evaluation at the scenario distribution,
`x = event_size = 2`. -/
theorem logProb_piecewise_witness :
    scenarioDist.logProb ((scenarioDist.eventSize : ℝ))
      = .ok (Real.log
            (scenarioDist.classProb (scenarioDist.staticCatEventSize - 1))
          + scenarioDist.dist.logProb 0) :=
  (logProb_piecewise scenarioDist rfl (by decide) rfl).2.2

/-- C9: a single-class categorical component (`N = 1`, `event_size = 0`)
still constructs successfully, but both moment methods then fail inside
`add_n` on the empty per-class list; with `N ≥ 2` (and passing assertions
and a matching class axis) both moments succeed, so the moment queries are
total only for `N ≥ 2`. -/
theorem single_class_moments_fail :
    (∀ (c : CatDist) (b : BaseDist) (r : ConstructResult),
      c.eventSizeStatic = some 1 → c.logits.length = 1 →
      construct (.catDist c) (.distObj b) false = .ok r →
      r.obj.mean = .error .addnEmpty ∧ r.obj.variance = .error .addnEmpty)
    ∧ ∀ d : Categorised, runAssertions d = .ok () →
      d.cat.logits.length = d.staticCatEventSize →
      2 ≤ d.staticCatEventSize →
      (d.mean).isOk = true ∧ (d.variance).isOk = true := by
  constructor
  · intro c b r hc hlen hr
    obtain ⟨hlg, hN, _, hassert, _⟩ := construct_ok_obj c b false r hr
    have hassert' : r.obj.assertions = [] := by
      rw [hassert]
      rfl
    have hA := runAssertions_nil _ hassert'
    have hN1 : r.obj.staticCatEventSize = 1 := hN 1 hc
    have hlen' : r.obj.cat.logits.length = r.obj.staticCatEventSize := by
      rw [hlg, hN1, hlen]
    exact ⟨mean_degenerate _ hA hlen' (by omega),
      variance_degenerate _ hA hlen' (by omega)⟩
  · intro d hA hLen h2
    constructor
    · rw [mean_eval d hA hLen h2]
      rfl
    · rw [variance_eval d hA hLen h2 _ (mean_eval d hA hLen h2)]
      rfl

/-- Witness for C9: the constructed single-class distribution has failing
moments. -/
theorem single_class_moments_fail_witness :
    singleClassResult.obj.mean = .error .addnEmpty
      ∧ singleClassResult.obj.variance = .error .addnEmpty :=
  single_class_moments_fail.1 singleClassCat pointMassBase singleClassResult
    rfl rfl rfl

/-- Failure of the deferred checks when the registered pair of assertions
contains a violated one; both carry `checkMessage`. -/
theorem runAssertions_pair_fail (d : Categorised) (b1 b2 : Bool)
    (h : d.assertions = [⟨b1, checkMessage⟩, ⟨b2, checkMessage⟩])
    (hf : b1 = false ∨ b2 = false) :
    runAssertions d = .error (.assertFailed checkMessage) := by
  rcases hf with hf | hf
  · subst hf
    simp [runAssertions, h]
  · subst hf
    cases b1 <;> simp [runAssertions, h]

/-- Every numeric method fails with the assertion error when the deferred
checks fail. -/
theorem methods_fail_on_assert (d : Categorised) (e : EvalErr)
    (hA : runAssertions d = .error e) :
    d.mean = .error e ∧ d.variance = .error e
      ∧ ∀ x : ℝ, d.logProb x = .error e := by
  refine ⟨?_, ?_, fun x => ?_⟩ <;>
    simp [Categorised.mean, Categorised.variance, Categorised.logProb, hA,
      except_error_bind]

/-- C4 counterexample: the deferred assertions carry the source's message
`"dist batch shape must match cat batch shape"`, not the message quoted by
the claim. -/
theorem assert_message_counterexample :
    (construct (.catDist scenarioCat) (.distObj mismatchedBase) true).map
        (fun r => r.obj.assertions.map (fun a => a.message))
      = .ok [checkMessage, checkMessage]
    ∧ checkMessage
        ≠ "distribution batch shape must match categorical batch shape" :=
  ⟨rfl, by decide⟩

/-- C4 (amended): with `validate = true` and components whose batch shapes
differ, every one of `mean`, `variance` and `log_prob` fails at evaluation
with the assertion message `"dist batch shape must match cat batch shape"`;
with `validate = false` no assertion is registered, the deferred check
passes, `log_prob` never raises, and the moments succeed whenever `N ≥ 2`
with a matching class axis. -/
theorem validate_shape_mismatch (c : CatDist) (b : BaseDist)
    (hne : c.batchShape ≠ b.batchShape) :
    (∀ r, construct (.catDist c) (.distObj b) true = .ok r →
      r.obj.mean = .error (.assertFailed checkMessage)
      ∧ r.obj.variance = .error (.assertFailed checkMessage)
      ∧ ∀ x : ℝ, r.obj.logProb x = .error (.assertFailed checkMessage))
    ∧ ∀ r, construct (.catDist c) (.distObj b) false = .ok r →
      r.obj.assertions = [] ∧ runAssertions r.obj = .ok ()
      ∧ (∀ x : ℝ, (r.obj.logProb x).isOk = true)
      ∧ ∀ n : ℕ, c.eventSizeStatic = some n → c.logits.length = n →
          2 ≤ n → (r.obj.mean).isOk = true
            ∧ (r.obj.variance).isOk = true := by
  constructor
  · intro r hr
    obtain ⟨_, _, _, hassert, _⟩ := construct_ok_obj c b true r hr
    have hassert' : r.obj.assertions =
        [⟨c.batchShape.length == b.batchShape.length, checkMessage⟩,
         ⟨c.batchShape == b.batchShape, checkMessage⟩] := by
      rw [hassert]
      rfl
    have hb2 : (c.batchShape == b.batchShape) = false :=
      beq_eq_false_iff_ne.mpr hne
    have hA := runAssertions_pair_fail r.obj
      (c.batchShape.length == b.batchShape.length)
      (c.batchShape == b.batchShape) hassert' (Or.inr hb2)
    exact methods_fail_on_assert _ _ hA
  · intro r hr
    obtain ⟨hlg, hN, _, hassert, _⟩ := construct_ok_obj c b false r hr
    have hassert' : r.obj.assertions = [] := by
      rw [hassert]
      rfl
    have hA := runAssertions_nil _ hassert'
    refine ⟨hassert', hA, fun x => ?_, fun n hn hlen h2 => ?_⟩
    · rw [logProb_eval _ hA x]
      rfl
    · have hN' : r.obj.staticCatEventSize = n := hN n hn
      have hlen' : r.obj.cat.logits.length = r.obj.staticCatEventSize := by
        rw [hlg, hN', hlen]
      have h2' : 2 ≤ r.obj.staticCatEventSize := by omega
      constructor
      · rw [mean_eval _ hA hlen' h2']
        rfl
      · rw [variance_eval _ hA hlen' h2' _ (mean_eval _ hA hlen' h2')]
        rfl

/-- Witness for C4: the mismatched-shape construction (batch shapes `[3]`
and `[4]`) makes `mean` fail with the assertion message. -/
theorem validate_shape_mismatch_witness :
    mismatchResult.obj.mean = .error (.assertFailed checkMessage) :=
  ((validate_shape_mismatch scenarioCat mismatchedBase (by decide)).1
    mismatchResult rfl).1

/-- C2 counterexample: for the constructed single-class distribution
(`N = 1`), `mean` fails inside `add_n` instead of returning the value
`P(class = 0) · (base.mean + 0) = 1` predicted by the claimed formula. -/
theorem mean_formula_counterexample :
    (construct (.catDist singleClassCat) (.distObj pointMassBase) false).map
        (fun r => r.obj.mean) = .ok (.error .addnEmpty)
    ∧ (construct (.catDist singleClassCat) (.distObj pointMassBase)
        false).map (fun r => r.obj.mean) ≠ .ok (.ok 1) := by
  have h1 : (construct (.catDist singleClassCat) (.distObj pointMassBase)
      false).map (fun r => r.obj.mean) = .ok (.error .addnEmpty) := rfl
  refine ⟨h1, ?_⟩
  rw [h1]
  simp

/-- C2 (amended): for every constructed distribution with at least two
classes whose deferred assertions pass and whose class axis matches the
static class count, `mean` returns
`Σ_{k < event_size} k · P(class = k) + P(class = event_size) ·
(base.mean + event_size)` with the class probabilities obtained by softmax
from the logits. -/
theorem mean_formula (d : Categorised) (hA : runAssertions d = .ok ())
    (hLen : d.cat.logits.length = d.staticCatEventSize)
    (h2 : 2 ≤ d.staticCatEventSize) :
    d.mean = .ok
      ((((List.range (d.staticCatEventSize - 1)).map
          (fun k : ℕ => (k : ℝ) * d.classProb k)).sum)
        + d.classProb (d.staticCatEventSize - 1)
          * (d.dist.mean + (d.eventSize : ℝ))) :=
  mean_eval d hA hLen h2

/-- Witness for C2: the concrete scenario (`N = 3`, logits `[0, 0, log 2]`,
point mass at `1` as base) has mean `1.75`. -/
theorem mean_formula_witness : scenarioDist.mean = .ok (7 / 4 : ℝ) := by
  rw [mean_formula scenarioDist rfl rfl (by decide)]
  norm_num [Categorised.classProb, scenarioDist, scenarioCat, pointMassBase,
    softmax, Categorised.eventSize, List.range_succ, Real.exp_log two_pos]

/-- C3 counterexample: for the constructed single-class distribution
(`N = 1`), `variance` fails inside `add_n` instead of returning the value
`0` predicted by the claimed formula (`E[X²] = 1`, `E[X] = 1`). -/
theorem variance_formula_counterexample :
    (construct (.catDist singleClassCat) (.distObj pointMassBase) false).map
        (fun r => r.obj.variance) = .ok (.error .addnEmpty)
    ∧ (construct (.catDist singleClassCat) (.distObj pointMassBase)
        false).map (fun r => r.obj.variance) ≠ .ok (.ok 0) := by
  have h1 : (construct (.catDist singleClassCat) (.distObj pointMassBase)
      false).map (fun r => r.obj.variance) = .ok (.error .addnEmpty) := rfl
  refine ⟨h1, ?_⟩
  rw [h1]
  simp

/-- C3 (amended): for every constructed distribution with at least two
classes whose deferred assertions pass and whose class axis matches the
static class count, `variance` returns `E[X²] − (E[X])²`, with
`E[X²] = Σ_{k < event_size} k² · P(class = k) + P(class = event_size) ·
(2 · event_size · base.mean + base.variance + base.mean² + event_size²)`
and `E[X]` obtained from the internal `mean` call. -/
theorem variance_formula (d : Categorised) (hA : runAssertions d = .ok ())
    (hLen : d.cat.logits.length = d.staticCatEventSize)
    (h2 : 2 ≤ d.staticCatEventSize) (m : ℝ) (hm : d.mean = .ok m) :
    d.variance = .ok
      ((((List.range (d.staticCatEventSize - 1)).map
          (fun k : ℕ => (k : ℝ) ^ 2 * d.classProb k)).sum)
        + d.classProb (d.staticCatEventSize - 1)
          * (2 * (d.eventSize : ℝ) * d.dist.mean + d.dist.variance
            + d.dist.mean ^ 2 + (d.eventSize : ℝ) ^ 2)
        - m ^ 2) :=
  variance_eval d hA hLen h2 m hm

/-- Witness for C3: the concrete scenario has
`variance = 19/4 − (7/4)² = 27/16`. -/
theorem variance_formula_witness :
    scenarioDist.variance = .ok (27 / 16 : ℝ) := by
  rw [variance_formula scenarioDist rfl rfl (by decide) _
    (mean_eval scenarioDist rfl rfl (by decide))]
  norm_num [Categorised.classProb, scenarioDist, scenarioCat, pointMassBase,
    softmax, Categorised.eventSize, List.range_succ, Real.exp_log two_pos]

end Scvae
